import Mathlib

/-!
Shallow embedding of the grocery-list manager from
`grocery_app.py` (class `GroceryManager`) and `app.py` (UI-level helpers).

Modelling conventions:
* Python dicts with fixed keys become Lean structures; the insertion-ordered
  `stores` dict becomes an association list `List (String × List Item)`.
* Python floats (prices, budgets) become rationals `ℚ`; `round(x, n)` becomes
  `roundTo n`.
* Python `int` quantities and indices become `Int` (they can be negative).
* Optional / possibly-`None` values become `Option`; Python string truthiness
  (`if store_name:`) is `pyTruthy`.
* Operations returning `(bool, message)` pairs return the `Bool` (and, where a
  claim needs it, the data carried by the message, e.g. the deleted count);
  the human-readable message text itself is presentation and not modelled.
* The debounced/forced persistence calls (`_schedule_save`, `force_save`) are
  I/O side effects with no influence on the in-memory state transition; they
  are dropped from the state-transition model.
-/

/-- A catalog item record (the dict shape used throughout `grocery_app.py`).
The seed data's `default_quantity` key is never read by any of the modelled
operations and is omitted. -/
structure Item where
  id : String
  name : String
  category : String
  store : String
  price : ℚ
  unit : String
deriving DecidableEq

/-- A shopping-list (cart) entry: a copy of a catalog item plus a `quantity`
key (`list_item = item.copy(); list_item['quantity'] = quantity`). -/
structure CartEntry where
  item : Item
  quantity : Int
deriving DecidableEq

/-- An archive entry as built by `archive_and_restart`.  The `date` /
`date_label` timestamp strings are never branched on by any modelled
operation and are omitted.  `store` is `Option String` because
`restore_from_archive` reads it with `archive.get('store', None)`. -/
structure ArchiveEntry where
  store : Option String
  items : List CartEntry
  item_count : Nat
  total_cost : ℚ
deriving DecidableEq

/-- The mutable state of a `GroceryManager` instance (the fields touched by
the modelled operations; the persistence configuration and timer handles
carry no list/catalog state). -/
structure GroceryManager where
  stores : List (String × List Item)
  shopping_list : List CartEntry
  budget : ℚ
  archived_lists : List ArchiveEntry
deriving DecidableEq

/-- `self.max_archives = 6`. -/
def maxArchives : Nat := 6

/-- Python `round(q, n)` on the rational model (round-half-up; the claims
never depend on the tie-breaking direction of Python's float rounding). -/
def roundTo (n : Nat) (q : ℚ) : ℚ :=
  ((⌊q * 10 ^ n + 1 / 2⌋ : ℤ) : ℚ) / 10 ^ n

/-- Python string truthiness for an optional string: `None` and `""` are
falsy, everything else truthy. -/
def pyTruthy : Option String → Bool
  | none => false
  | some s => !(s == "")

/-- Python `store_name or 'All Stores'`. -/
def pyOrStr : Option String → String → String
  | none, d => d
  | some s, d => if s == "" then d else s

/-- Python `str.strip()`: drop leading and trailing whitespace (structural
model of `String.trim`, restricted to the ASCII whitespace the inputs here
can contain). -/
def pyStrip (s : String) : String :=
  String.mk (((s.data.dropWhile Char.isWhitespace).reverse.dropWhile Char.isWhitespace).reverse)

/-- Python `str.lower()` (structural model of `String.toLower`; maps ASCII
letters — the names compared by the claims are ASCII after normalization). -/
def pyLower (s : String) : String :=
  String.mk (s.data.map Char.toLower)

/-- The catalog scan shared by `add_to_shopping_list` and
`update_catalog_item`: `for store_name, items in self.stores.items():
for item in items: if item['id'] == item_id: ...` — first match wins,
scanning stores in dict order and each store's items in list order. -/
def findCatalogItem : List (String × List Item) → String → Option Item
  | [], _ => none
  | (_, items) :: rest, item_id =>
    match items.find? (fun it => it.id == item_id) with
    | some it => some it
    | none => findCatalogItem rest item_id

/-- The merge branch of `add_to_shopping_list`: bump the quantity of the
first cart entry whose id matches (the Python loop returns after the first
hit). -/
def mergeQty : List CartEntry → String → Int → List CartEntry
  | [], _, _ => []
  | e :: rest, item_id, q =>
    if e.item.id == item_id then { e with quantity := e.quantity + q } :: rest
    else e :: mergeQty rest item_id q

/-- `GroceryManager.add_to_shopping_list(item_id, quantity)`. -/
def add_to_shopping_list (m : GroceryManager) (item_id : String) (quantity : Int) :
    GroceryManager × Bool :=
  match findCatalogItem m.stores item_id with
  | none => (m, false)
  | some item =>
    if m.shopping_list.any (fun e => e.item.id == item_id) then
      ({ m with shopping_list := mergeQty m.shopping_list item_id quantity }, true)
    else
      ({ m with shopping_list := m.shopping_list ++ [{ item := item, quantity := quantity }] },
        true)

/-- `GroceryManager.remove_from_shopping_list(item_id)`. -/
def remove_from_shopping_list (m : GroceryManager) (item_id : String) : GroceryManager :=
  { m with shopping_list := m.shopping_list.filter (fun e => !(e.item.id == item_id)) }

/-- The in-place quantity overwrite of `GroceryManager.update_quantity`:
set the first matching entry's quantity, report whether a match was found. -/
def setQtyFirst : List CartEntry → String → Int → List CartEntry × Bool
  | [], _, _ => ([], false)
  | e :: rest, item_id, q =>
    if e.item.id == item_id then ({ e with quantity := q } :: rest, true)
    else
      let r := setQtyFirst rest item_id q
      (e :: r.1, r.2)

/-- `GroceryManager.update_quantity(item_id, quantity)`. -/
def update_quantity (m : GroceryManager) (item_id : String) (quantity : Int) :
    GroceryManager × Bool :=
  let r := setQtyFirst m.shopping_list item_id quantity
  ({ m with shopping_list := r.1 }, r.2)

/-- `sum(item['price'] * item['quantity'] for item in ...)`. -/
def cartSum (l : List CartEntry) : ℚ :=
  (l.map (fun e => e.item.price * (e.quantity : ℚ))).sum

/-- `GroceryManager.get_total_cost()`. -/
def get_total_cost (m : GroceryManager) : ℚ :=
  roundTo 2 (cartSum m.shopping_list)

/-- The fields of the dict returned by `GroceryManager.get_budget_status`
that carry numeric state (the `status` / `color` strings are derived
presentation text and not modelled). -/
structure BudgetStatus where
  total : ℚ
  budget : ℚ
  percentage : ℚ
  remaining : ℚ
deriving DecidableEq

/-- The local variable `percentage = (total / self.budget * 100) if
self.budget > 0 else 0` in `GroceryManager.get_budget_status`. -/
def budgetPercentage (m : GroceryManager) : ℚ :=
  if m.budget > 0 then get_total_cost m / m.budget * 100 else 0

/-- `GroceryManager.get_budget_status()`. -/
def get_budget_status (m : GroceryManager) : BudgetStatus :=
  { total := get_total_cost m
    budget := m.budget
    percentage := roundTo 1 (budgetPercentage m)
    remaining := roundTo 2 (m.budget - get_total_cost m) }

/-- `GroceryManager.clear_shopping_list()`. -/
def clear_shopping_list (m : GroceryManager) : GroceryManager :=
  { m with shopping_list := [] }

/-- Apply the provided (non-`None`) fields of `update_catalog_item` to an
item record; `float(price)` is the identity on the rational model. -/
def applyFields (it : Item) (name category : Option String) (price : Option ℚ)
    (u : Option String) : Item :=
  { it with
    name := name.getD it.name
    category := category.getD it.category
    price := price.getD it.price
    unit := u.getD it.unit }

/-- Patch the first item of a store's item list whose id matches;
`none` when no item matches. -/
def patchItems : List Item → String → Option String → Option String → Option ℚ →
    Option String → Option (List Item)
  | [], _, _, _, _, _ => none
  | it :: rest, item_id, n, c, p, u =>
    if it.id == item_id then some (applyFields it n c p u :: rest)
    else (patchItems rest item_id n c p u).map (fun l => it :: l)

/-- Patch the first catalog item matching `item_id`, scanning stores in
dict order (the Python double loop of `update_catalog_item`). -/
def patchStores : List (String × List Item) → String → Option String → Option String →
    Option ℚ → Option String → Option (List (String × List Item))
  | [], _, _, _, _, _ => none
  | (sn, items) :: rest, item_id, n, c, p, u =>
    match patchItems items item_id n c p u with
    | some items2 => some ((sn, items2) :: rest)
    | none => (patchStores rest item_id n c p u).map (fun l => (sn, items) :: l)

/-- `GroceryManager.update_catalog_item(item_id, name, category, price, unit)`:
patch the first matching catalog item, then patch every matching cart entry
with the same field values. -/
def update_catalog_item (m : GroceryManager) (item_id : String)
    (name category : Option String) (price : Option ℚ) (u : Option String) :
    GroceryManager × Bool :=
  match patchStores m.stores item_id name category price u with
  | some stores2 =>
    ({ m with
        stores := stores2
        shopping_list := m.shopping_list.map (fun e =>
          if e.item.id == item_id then { e with item := applyFields e.item name category price u }
          else e) }, true)
  | none => (m, false)

/-- The `store_items` selection at the top of `archive_and_restart`:
entries of the named store, or the whole list when `store_name` is falsy. -/
def storeSelection (m : GroceryManager) (store_name : Option String) : List CartEntry :=
  if pyTruthy store_name then
    m.shopping_list.filter (fun e => some e.item.store == store_name)
  else m.shopping_list

/-- The `archive_entry` dict built by `archive_and_restart` (timestamp
strings omitted). -/
def archiveEntryOf (m : GroceryManager) (store_name : Option String) : ArchiveEntry :=
  { store := some (pyOrStr store_name "All Stores")
    items := storeSelection m store_name
    item_count := (storeSelection m store_name).length
    total_cost := roundTo 2 (cartSum (storeSelection m store_name)) }

/-- `GroceryManager.archive_and_restart(store_name)`. -/
def archive_and_restart (m : GroceryManager) (store_name : Option String) :
    GroceryManager × Bool :=
  if (storeSelection m store_name).isEmpty then (m, false)
  else
    let archived := archiveEntryOf m store_name :: m.archived_lists
    let archived2 := if archived.length > maxArchives then archived.take maxArchives else archived
    let sl :=
      if pyTruthy store_name then
        m.shopping_list.filter (fun e => !(some e.item.store == store_name))
      else []
    ({ m with shopping_list := sl, archived_lists := archived2 }, true)

/-- `GroceryManager.restore_from_archive(archive_index)`. -/
def restore_from_archive (m : GroceryManager) (archive_index : Int) :
    GroceryManager × Bool :=
  if archive_index < 0 ∨ (m.archived_lists.length : Int) ≤ archive_index then (m, false)
  else
    match m.archived_lists[archive_index.toNat]? with
    | none => (m, false)
    | some archive =>
      let sl :=
        if pyTruthy archive.store then
          m.shopping_list.filter (fun e => !(some e.item.store == archive.store))
        else []
      ({ m with shopping_list := sl ++ archive.items }, true)

/-- Descending insertion: the step of the stable descending sort modelling
`sorted(indices, reverse=True)`. -/
def insertDesc (x : Int) : List Int → List Int
  | [] => [x]
  | y :: ys => if y ≤ x then x :: y :: ys else y :: insertDesc x ys

/-- `sorted(indices, reverse=True)` as a stable insertion sort. -/
def sortDesc (l : List Int) : List Int := l.foldr insertDesc []

/-- `GroceryManager.delete_multiple_archives(indices)`.  Returns the new
state, the success flag, and the `deleted_count` reported in the message. -/
def delete_multiple_archives (m : GroceryManager) (indices : List Int) :
    GroceryManager × Bool × Nat :=
  if indices.isEmpty then (m, false, 0)
  else
    let p := (sortDesc indices).foldl
      (fun (p : List ArchiveEntry × Nat) index =>
        if 0 ≤ index ∧ index < (p.1.length : Int) then
          (p.1.eraseIdx index.toNat, p.2 + 1)
        else p)
      (m.archived_lists, 0)
    if 0 < p.2 then ({ m with archived_lists := p.1 }, true, p.2)
    else (m, false, 0)

/-- The NFKD decomposition table of `unicodedata.normalize('NFKD', ·)`,
restricted to the characters exercised in this development (all other
characters decompose to themselves, as plain ASCII does under NFKD). -/
def nfkdChar (c : Char) : List Char :=
  if c = 'é' then ['e', '́']
  else if c = 'É' then ['E', '́']
  else if c = 'à' then ['a', '̀']
  else [c]

/-- `unicodedata.combining(c) != 0` for the Combining Diacritical Marks
block (U+0300–U+036F), the marks produced by the decompositions above. -/
def isCombining (c : Char) : Bool :=
  0x300 ≤ c.toNat && c.toNat ≤ 0x36F

/-- `normalize_text` from `app.py`: NFKD-decompose, drop combining marks,
strip. -/
def normalize_text (text : String) : String :=
  if text == "" then text
  else
    pyStrip (String.mk (((text.data.map nfkdChar).flatten).filter (fun c => !(isCombining c))))

/-- The three distinguishable outcomes of `add_catalog_item` in `app.py`
(validation failure, duplicate-name rejection, successful insert). -/
inductive AddCatalogResult where
  | invalid : AddCatalogResult
  | duplicate : String → AddCatalogResult
  | added : String → String → AddCatalogResult
deriving DecidableEq

/-- `int(item_id.split("-")[1])` guarded by `try/except`: `none` models the
swallowed `IndexError` / `ValueError`. -/
def parseIdNum (item_id : String) : Option Int :=
  match item_id.splitOn "-" with
  | _ :: second :: _ => second.toInt?
  | _ => none

/-- The `max_id` loop of `add_catalog_item`. -/
def maxIdNum (store_items : List Item) (pfx : String) : Int :=
  store_items.foldl
    (fun acc it =>
      if it.id.startsWith pfx then
        match parseIdNum it.id with
        | some n => max acc n
        | none => acc
      else acc) 0

/-- `grocery_manager.stores[store_name].append(new_item)` on the assoc-list
model.  (In Python this line raises `KeyError` when the store key is absent;
here it is a no-op in that case — every claim exercises present stores, and
the duplicate check that the claims are about happens before this point.) -/
def storesAppend (stores : List (String × List Item)) (store_name : String) (it : Item) :
    List (String × List Item) :=
  stores.map (fun p => if p.1 == store_name then (p.1, p.2 ++ [it]) else p)

/-- `add_catalog_item(store_name, name, category, price, unit)` from
`app.py`. -/
def add_catalog_item (m : GroceryManager) (store_name name category : String)
    (price : ℚ) (u : String) : GroceryManager × AddCatalogResult :=
  if name = "" ∨ category = "" ∨ price ≤ 0 then (m, .invalid)
  else
    let name_normalized := normalize_text (pyStrip name)
    let category_normalized := normalize_text (pyStrip category)
    let store_items := (m.stores.lookup store_name).getD []
    let name_trimmed := pyLower name_normalized
    if store_items.any (fun it => pyLower it.name == name_trimmed) then
      (m, .duplicate name_normalized)
    else
      let pfx := (pyLower (store_name.take 2)).replace " " ""
      let new_id := pfx ++ "-" ++ toString (maxIdNum store_items pfx + 1)
      let new_item : Item :=
        { id := new_id, name := name_normalized, category := category_normalized
          price := price, unit := pyStrip u, store := store_name }
      ({ m with stores := storesAppend m.stores store_name new_item },
        .added new_id name_normalized)

/-- The four distinguishable outcomes of `update_item_quantity` in `app.py`
(empty id, quantity below 1, successful update with the old and new
quantities, id not found in the cart). -/
inductive UpdateQtyResult where
  | emptyId : UpdateQtyResult
  | qtyTooSmall : UpdateQtyResult
  | updated : String → Int → Int → UpdateQtyResult
  | notFound : String → UpdateQtyResult
deriving DecidableEq

/-- The scan of `update_item_quantity`: overwrite the quantity of the first
entry whose id matches, reporting the entry's name and old quantity;
`none` when no entry matches. -/
def findSetQty : List CartEntry → String → Int → Option (List CartEntry × String × Int)
  | [], _, _ => none
  | e :: rest, tid, q =>
    if e.item.id == tid then some ({ e with quantity := q } :: rest, e.item.name, e.quantity)
    else (findSetQty rest tid q).map (fun r => (e :: r.1, r.2))

/-- `update_item_quantity(item_id, new_quantity)` from `app.py`. -/
def update_item_quantity (m : GroceryManager) (item_id : String) (new_quantity : Int) :
    GroceryManager × UpdateQtyResult :=
  if item_id = "" ∨ pyStrip item_id = "" then (m, .emptyId)
  else if new_quantity < 1 then (m, .qtyTooSmall)
  else
    match findSetQty m.shopping_list (pyStrip item_id) new_quantity with
    | some r => ({ m with shopping_list := r.1 }, .updated r.2.1 r.2.2 new_quantity)
    | none => (m, .notFound item_id)

/-- The unrounded `total` of `get_budget_status` in `app.py`. -/
def app_budget_total (m : GroceryManager) : ℚ := cartSum m.shopping_list

/-- The third component returned by `get_budget_status` in `app.py`:
`total / budget if budget > 0 else 0`. -/
def app_get_budget_status_ratio (m : GroceryManager) : ℚ :=
  if m.budget > 0 then app_budget_total m / m.budget else 0

/-- The cart invariant of the spec: at most one cart entry per item id. -/
def cartIdsNodup (l : List CartEntry) : Prop :=
  (l.map (fun e => e.item.id)).Nodup

instance (l : List CartEntry) : Decidable (cartIdsNodup l) := by
  unfold cartIdsNodup; infer_instance

/-! ### Concrete states used by witnesses and counterexamples.

The catalogs below are reachable program states: the initial catalog is
whatever the loader produced (remote document, local file, or seed data),
and `delete_catalog_item` / `add_catalog_item` can produce any per-store
catalog from there; the carts and archives are produced by the modelled
operations themselves. -/

def itemSW : Item :=
  { id := "sw-1", name := "Chicken Breast", category := "Meat", store := "Safeway",
    price := 499/100, unit := "lb" }

def itemCO : Item :=
  { id := "co-1", name := "Paper Towels", category := "Bulk Household", store := "Costco",
    price := 1999/100, unit := "pack" }

def entrySW1 : CartEntry := { item := itemSW, quantity := 1 }

def entryCO2 : CartEntry := { item := itemCO, quantity := 2 }

def exampleManager : GroceryManager :=
  { stores := [("Safeway", [itemSW]), ("Costco", [itemCO])]
    shopping_list := [], budget := 750, archived_lists := [] }

/-- Cart `[co-1 × 2]`. -/
def em1 : GroceryManager := (add_to_shopping_list exampleManager "co-1" 2).1

/-- After `archive_and_restart(None)`: empty cart, one `'All Stores'`
archive holding `[co-1 × 2]`. -/
def em2 : GroceryManager := (archive_and_restart em1 none).1

/-- `co-1` re-added after the all-stores archive: cart `[co-1 × 1]`. -/
def em3a : GroceryManager := (add_to_shopping_list em2 "co-1" 1).1

/-- `sw-1` added after the all-stores archive: cart `[sw-1 × 1]`. -/
def em3b : GroceryManager := (add_to_shopping_list em2 "sw-1" 1).1

/-- A cart holding one entry per store. -/
def exampleCart2 : GroceryManager :=
  { exampleManager with shopping_list := [entrySW1, entryCO2] }

def exampleArchiveCO : ArchiveEntry :=
  { store := some "Costco", items := [entryCO2], item_count := 1,
    total_cost := roundTo 2 (cartSum [entryCO2]) }

def exampleRestoreMgr : GroceryManager :=
  { exampleManager with shopping_list := [entrySW1], archived_lists := [exampleArchiveCO] }

/-! ### Helper lemmas about the cart operations. -/

theorem mergeQty_map_id (l : List CartEntry) (item_id : String) (q : Int) :
    (mergeQty l item_id q).map (fun e => e.item.id) = l.map (fun e => e.item.id) := by
  induction l with
  | nil => rfl
  | cons e rest ih =>
    by_cases h : e.item.id == item_id
    · simp [mergeQty, h]
    · simp [mergeQty, h, ih]

theorem setQtyFirst_fst_map_id (l : List CartEntry) (item_id : String) (q : Int) :
    (setQtyFirst l item_id q).1.map (fun e => e.item.id) = l.map (fun e => e.item.id) := by
  induction l with
  | nil => rfl
  | cons e rest ih =>
    by_cases h : e.item.id == item_id
    · simp [setQtyFirst, h]
    · simp [setQtyFirst, h, ih]

theorem findCatalogItem_id (stores : List (String × List Item)) (item_id : String)
    (it : Item) (h : findCatalogItem stores item_id = some it) : it.id = item_id := by
  induction stores with
  | nil => simp [findCatalogItem] at h
  | cons p rest ih =>
    rw [findCatalogItem] at h
    cases hf : p.2.find? (fun x => x.id == item_id) with
    | none => rw [hf] at h; exact ih h
    | some x =>
      rw [hf] at h
      have := List.find?_some hf
      cases h
      exact by simpa using this

theorem add_to_shopping_list_stores (m : GroceryManager) (item_id : String) (q : Int) :
    ((add_to_shopping_list m item_id q).1).stores = m.stores := by
  unfold add_to_shopping_list
  cases findCatalogItem m.stores item_id with
  | none => rfl
  | some it =>
    by_cases h : m.shopping_list.any (fun e => e.item.id == item_id) <;> simp [h]

theorem mergeQty_append (l1 : List CartEntry) (e : CartEntry) (l2 : List CartEntry)
    (item_id : String) (q : Int)
    (h1 : ∀ x ∈ l1, x.item.id ≠ item_id) (he : e.item.id = item_id) :
    mergeQty (l1 ++ e :: l2) item_id q = l1 ++ { e with quantity := e.quantity + q } :: l2 := by
  induction l1 with
  | nil => simp [mergeQty, he]
  | cons x rest ih =>
    have hx : ¬(x.item.id == item_id) = true := by
      simpa using h1 x (by simp)
    rw [List.cons_append, mergeQty, if_neg hx]
    rw [ih (fun y hy => h1 y (by simp [hy]))]
    rfl

theorem exists_split_of_mem_nodup (l : List CartEntry) (e : CartEntry)
    (hmem : e ∈ l) (hnd : cartIdsNodup l) :
    ∃ l1 l2, l = l1 ++ e :: l2 ∧ ∀ x ∈ l1, x.item.id ≠ e.item.id := by
  obtain ⟨l1, l2, rfl⟩ := List.append_of_mem hmem
  refine ⟨l1, l2, rfl, ?_⟩
  intro x hx hxe
  have := hnd
  simp only [cartIdsNodup, List.map_append, List.map_cons, List.nodup_append] at this
  exact this.2.2 (List.mem_map_of_mem _ hx) (by simp [hxe])

theorem restore_archived_lists (m : GroceryManager) (i : Int) :
    ((restore_from_archive m i).1).archived_lists = m.archived_lists := by
  unfold restore_from_archive
  by_cases h : i < 0 ∨ (m.archived_lists.length : Int) ≤ i
  · simp [h]
  · simp only [h, if_neg, not_false_iff]
    cases m.archived_lists[i.toNat]? with
    | none => rfl
    | some a => rfl

theorem nodup_add_to_shopping_list (m : GroceryManager) (h : cartIdsNodup m.shopping_list)
    (item_id : String) (q : Int) :
    cartIdsNodup ((add_to_shopping_list m item_id q).1).shopping_list := by
  unfold add_to_shopping_list
  cases hf : findCatalogItem m.stores item_id with
  | none => exact h
  | some it =>
    by_cases ha : m.shopping_list.any (fun e => e.item.id == item_id)
    · simpa [ha, cartIdsNodup, mergeQty_map_id] using h
    · have hid : it.id = item_id := findCatalogItem_id _ _ _ hf
      have hnotmem : ∀ e ∈ m.shopping_list, ¬(e.item.id = item_id) := by
        intro e he
        simp only [Bool.not_eq_true] at ha
        have := (List.any_eq_false).mp ha e he
        simpa using this
      simp only [ha, if_neg, Bool.false_eq_true, not_false_iff, cartIdsNodup, List.map_append]
      rw [List.nodup_append]
      refine ⟨h, by simp, ?_⟩
      intro a hma hmb
      simp only [List.map_cons, List.map_nil, List.mem_cons, List.not_mem_nil, or_false] at hmb
      obtain ⟨e, he, rfl⟩ := List.mem_map.mp hma
      exact hnotmem e he (by simpa [hid] using hmb)

theorem nodup_remove_from_shopping_list (m : GroceryManager)
    (h : cartIdsNodup m.shopping_list) (item_id : String) :
    cartIdsNodup ((remove_from_shopping_list m item_id)).shopping_list := by
  unfold remove_from_shopping_list cartIdsNodup
  exact List.Nodup.sublist (List.Sublist.map _ (List.filter_sublist _)) h

theorem nodup_update_quantity (m : GroceryManager) (h : cartIdsNodup m.shopping_list)
    (item_id : String) (q : Int) :
    cartIdsNodup ((update_quantity m item_id q).1).shopping_list := by
  unfold update_quantity
  simpa [cartIdsNodup, setQtyFirst_fst_map_id] using h

theorem nodup_update_catalog_item (m : GroceryManager) (h : cartIdsNodup m.shopping_list)
    (item_id : String) (n c : Option String) (p : Option ℚ) (u : Option String) :
    cartIdsNodup ((update_catalog_item m item_id n c p u).1).shopping_list := by
  unfold update_catalog_item
  cases patchStores m.stores item_id n c p u with
  | none => exact h
  | some stores2 =>
    simp only [cartIdsNodup, List.map_map]
    have : ∀ e : CartEntry,
        ((fun e : CartEntry => e.item.id) ∘ fun e : CartEntry =>
          if e.item.id == item_id then { e with item := applyFields e.item n c p u } else e) e
        = (fun e : CartEntry => e.item.id) e := by
      intro e
      by_cases hb : e.item.id = item_id
      · simp [hb, applyFields]
      · simp [hb, applyFields]
    rw [List.map_congr_left (fun e _ => this e)]
    exact h

theorem nodup_clear_shopping_list (m : GroceryManager) :
    cartIdsNodup ((clear_shopping_list m)).shopping_list := by
  simp [clear_shopping_list, cartIdsNodup]

theorem nodup_archive_and_restart (m : GroceryManager) (h : cartIdsNodup m.shopping_list)
    (store_name : Option String) :
    cartIdsNodup ((archive_and_restart m store_name).1).shopping_list := by
  unfold archive_and_restart
  by_cases hsel : (storeSelection m store_name).isEmpty
  · simp only [hsel, if_pos]; exact h
  · simp only [hsel, Bool.false_eq_true, if_neg, not_false_iff]
    by_cases ht : pyTruthy store_name
    · simp only [ht, if_pos]
      exact List.Nodup.sublist (List.Sublist.map _ (List.filter_sublist _)) h
    · simp [ht, cartIdsNodup]

theorem nodup_restore_from_archive (m : GroceryManager) (h : cartIdsNodup m.shopping_list)
    (i : Int) (A : ArchiveEntry)
    (hA : m.archived_lists[i.toNat]? = some A)
    (hAnd : (A.items.map (fun e => e.item.id)).Nodup)
    (hdisj : ∀ e ∈ m.shopping_list, ∀ a ∈ A.items, e.item.id ≠ a.item.id) :
    cartIdsNodup ((restore_from_archive m i).1).shopping_list := by
  unfold restore_from_archive
  by_cases hoob : i < 0 ∨ (m.archived_lists.length : Int) ≤ i
  · simp only [hoob, if_pos]; exact h
  · simp only [hoob, if_neg, not_false_iff]
    rw [hA]
    simp only [cartIdsNodup, List.map_append, List.nodup_append]
    refine ⟨?_, hAnd, ?_⟩
    · by_cases ht : pyTruthy A.store
      · simp only [ht, if_pos]
        exact List.Nodup.sublist (List.Sublist.map _ (List.filter_sublist _)) h
      · simp [ht]
    · intro x hx hx2
      by_cases ht : pyTruthy A.store
      · simp only [ht, if_pos] at hx
        obtain ⟨e, he, rfl⟩ := List.mem_map.mp hx
        obtain ⟨a, ha, haeq⟩ := List.mem_map.mp hx2
        exact hdisj e (List.mem_of_mem_filter he) a ha haeq.symm
      · simp [ht] at hx

theorem add_merge_split (m : GroceryManager) (h : cartIdsNodup m.shopping_list)
    (item_id : String) (q : Int) (it : Item) (e : CartEntry)
    (hf : findCatalogItem m.stores item_id = some it)
    (he : e ∈ m.shopping_list) (hid : e.item.id = item_id) :
    ∃ l1 l2, m.shopping_list = l1 ++ e :: l2 ∧
      ((add_to_shopping_list m item_id q).1).shopping_list
        = l1 ++ { e with quantity := e.quantity + q } :: l2 := by
  obtain ⟨l1, l2, hsplit, hfree⟩ := exists_split_of_mem_nodup _ e he h
  refine ⟨l1, l2, hsplit, ?_⟩
  have hany : m.shopping_list.any (fun x => x.item.id == item_id) = true :=
    List.any_eq_true.mpr ⟨e, he, by simp [hid]⟩
  unfold add_to_shopping_list
  rw [hf]
  simp only [hany, if_pos]
  rw [hsplit]
  exact mergeQty_append l1 e l2 item_id q
    (fun x hx => by rw [← hid]; exact hfree x hx) hid

/-! ### Claim C1 -/

/-- Claim C1 (amended): starting from a cart with at most one entry per item
id, the operations `add_to_shopping_list`, `remove_from_shopping_list`,
`update_quantity`, `update_catalog_item`, `clear_shopping_list` and
`archive_and_restart` all preserve the invariant, and re-adding an id
already in the cart merges by summing quantity into the existing entry;
`restore_from_archive`, however, preserves it only when the restored
archive's item ids are duplicate-free and disjoint from the ids in the live
cart (restoring an `'All Stores'` snapshot does not clear the cart and can
duplicate an id, see the counterexample). -/
theorem C1_cart_unique_ids (m : GroceryManager) (h : cartIdsNodup m.shopping_list) :
    (∀ item_id q, cartIdsNodup ((add_to_shopping_list m item_id q).1).shopping_list) ∧
    (∀ item_id, cartIdsNodup ((remove_from_shopping_list m item_id)).shopping_list) ∧
    (∀ item_id q, cartIdsNodup ((update_quantity m item_id q).1).shopping_list) ∧
    (∀ item_id n c p u, cartIdsNodup ((update_catalog_item m item_id n c p u).1).shopping_list) ∧
    cartIdsNodup ((clear_shopping_list m)).shopping_list ∧
    (∀ sn, cartIdsNodup ((archive_and_restart m sn).1).shopping_list) ∧
    (∀ (i : Int) (A : ArchiveEntry), m.archived_lists[i.toNat]? = some A →
      (A.items.map (fun e => e.item.id)).Nodup →
      (∀ e ∈ m.shopping_list, ∀ a ∈ A.items, e.item.id ≠ a.item.id) →
      cartIdsNodup ((restore_from_archive m i).1).shopping_list) ∧
    (∀ item_id q it e, findCatalogItem m.stores item_id = some it →
      e ∈ m.shopping_list → e.item.id = item_id →
      ∃ l1 l2, m.shopping_list = l1 ++ e :: l2 ∧
        ((add_to_shopping_list m item_id q).1).shopping_list
          = l1 ++ { e with quantity := e.quantity + q } :: l2) := by
  refine ⟨fun item_id q => nodup_add_to_shopping_list m h item_id q,
    fun item_id => nodup_remove_from_shopping_list m h item_id,
    fun item_id q => nodup_update_quantity m h item_id q,
    fun item_id n c p u => nodup_update_catalog_item m h item_id n c p u,
    nodup_clear_shopping_list m,
    fun sn => nodup_archive_and_restart m h sn,
    fun i A hA hAnd hdisj => nodup_restore_from_archive m h i A hA hAnd hdisj,
    fun item_id q it e hf he hid => add_merge_split m h item_id q it e hf he hid⟩

/-- Claim C1, counterexample to the claim as stated: from the (reachable)
state `em3a` — whose cart `[co-1 × 1]` satisfies the invariant and whose
archive ring holds one `'All Stores'` snapshot containing `co-1 × 2` —
`restore_from_archive 0` produces a cart with two entries for id `co-1`,
so `restore_from_archive` does not preserve the invariant. -/
theorem C1_counterexample :
    cartIdsNodup em3a.shopping_list ∧
    ¬ cartIdsNodup ((restore_from_archive em3a 0).1).shopping_list := by decide

/-- Claim C1 witness: the hypotheses of `C1_cart_unique_ids` (including
those of its `restore_from_archive` part) hold at a concrete state, and the
theorem yields the invariant for the restored cart there. -/
theorem C1_witness :
    cartIdsNodup exampleRestoreMgr.shopping_list ∧
    exampleRestoreMgr.archived_lists[(0 : Int).toNat]? = some exampleArchiveCO ∧
    cartIdsNodup ((restore_from_archive exampleRestoreMgr 0).1).shopping_list :=
  ⟨by decide, by rfl,
    (C1_cart_unique_ids exampleRestoreMgr (by decide)).2.2.2.2.2.2.1 0 exampleArchiveCO
      (by rfl) (by decide) (by decide)⟩

/-! ### Claim C2 -/

theorem filter_idem {α : Type} (l : List α) (p : α → Bool) :
    (l.filter p).filter p = l.filter p := by
  rw [List.filter_filter]
  apply List.filter_congr
  intro a _
  cases p a <;> rfl

theorem filter_not_filter {α : Type} (l : List α) (p : α → Bool) :
    (l.filter (fun a => !(p a))).filter p = [] := by
  rw [List.filter_filter]
  apply List.filter_eq_nil_iff.mpr
  intro a _
  cases p a <;> simp

theorem filter_pos_filter {α : Type} (l : List α) (p : α → Bool) :
    (l.filter p).filter (fun a => !(p a)) = [] := by
  rw [List.filter_filter]
  apply List.filter_eq_nil_iff.mpr
  intro a _
  cases p a <;> simp

theorem storeSelection_some (m : GroceryManager) (s : String) (hs : s ≠ "") :
    storeSelection m (some s) = m.shopping_list.filter (fun e => e.item.store == s) := by
  unfold storeSelection
  rw [if_pos (by simp [pyTruthy, hs])]
  apply List.filter_congr
  intro e _
  simp

theorem filterStoreNot_opt (l : List CartEntry) (s : String) :
    l.filter (fun e => !(some e.item.store == some s))
      = l.filter (fun e => !(e.item.store == s)) := by
  apply List.filter_congr
  intro e _
  simp

theorem archive_and_restart_some_eq (m : GroceryManager) (s : String) (hs : s ≠ "")
    (hne : storeSelection m (some s) ≠ []) :
    (archive_and_restart m (some s)).1
      = { m with
          shopping_list := m.shopping_list.filter (fun e => !(e.item.store == s))
          archived_lists :=
            if (archiveEntryOf m (some s) :: m.archived_lists).length > maxArchives then
              (archiveEntryOf m (some s) :: m.archived_lists).take maxArchives
            else archiveEntryOf m (some s) :: m.archived_lists } := by
  unfold archive_and_restart
  rw [if_neg (by simpa [List.isEmpty_iff] using hne)]
  have ht : pyTruthy (some s) = true := by simp [pyTruthy, hs]
  simp only [ht, if_true]
  rw [filterStoreNot_opt]

theorem archiveEntryOf_some_store (m : GroceryManager) (s : String) (hs : s ≠ "") :
    (archiveEntryOf m (some s)).store = some s := by
  simp [archiveEntryOf, pyOrStr, hs]

theorem restore_from_archive_zero_eq (m : GroceryManager) (A : ArchiveEntry) (s : String)
    (hs : s ≠ "") (h0 : m.archived_lists[(0 : Int).toNat]? = some A)
    (hpos : 0 < m.archived_lists.length) (hAstore : A.store = some s) :
    ((restore_from_archive m 0).1).shopping_list
      = m.shopping_list.filter (fun e => !(e.item.store == s)) ++ A.items := by
  have hguard : ¬((0 : Int) < 0 ∨ (m.archived_lists.length : Int) ≤ 0) := by
    simp only [not_or, not_lt, not_le]
    exact ⟨le_refl 0, by exact_mod_cast hpos⟩
  unfold restore_from_archive
  rw [if_neg hguard, h0]
  have ht : pyTruthy A.store = true := by rw [hAstore]; simp [pyTruthy, hs]
  simp only [ht, if_true]
  rw [hAstore, filterStoreNot_opt]

/-- Claim C2: for every cart state and store name `s` with a non-empty
selection of cart entries, `archive_and_restart(s)` immediately followed by
`restore_from_archive(0)` leaves the live cart's entries for store `s`
exactly as they were before archiving (the very same entry records, hence
same ids, quantities and prices), and the entries of every other store are
unchanged both after archiving and after restoring. -/
theorem C2_archive_restore_roundtrip (m : GroceryManager) (s : String) (hs : s ≠ "")
    (hne : m.shopping_list.filter (fun e => e.item.store == s) ≠ []) :
    ((restore_from_archive (archive_and_restart m (some s)).1 0).1).shopping_list.filter
        (fun e => e.item.store == s)
      = m.shopping_list.filter (fun e => e.item.store == s) ∧
    ((restore_from_archive (archive_and_restart m (some s)).1 0).1).shopping_list.filter
        (fun e => !(e.item.store == s))
      = m.shopping_list.filter (fun e => !(e.item.store == s)) ∧
    ((archive_and_restart m (some s)).1).shopping_list.filter
        (fun e => !(e.item.store == s))
      = m.shopping_list.filter (fun e => !(e.item.store == s)) := by
  have hsel := storeSelection_some m s hs
  have hne' : storeSelection m (some s) ≠ [] := by rw [hsel]; exact hne
  have harch := archive_and_restart_some_eq m s hs hne'
  have hm2sl : ((archive_and_restart m (some s)).1).shopping_list
      = m.shopping_list.filter (fun e => !(e.item.store == s)) := by rw [harch]
  have h0 : ((archive_and_restart m (some s)).1).archived_lists[(0 : Int).toNat]?
      = some (archiveEntryOf m (some s)) := by
    rw [harch]
    by_cases hl : (archiveEntryOf m (some s) :: m.archived_lists).length > maxArchives
    · simp only [hl, if_true]
      rw [show maxArchives = 5 + 1 from rfl, List.take_succ_cons]
      simp
    · simp only [hl, if_false]
      simp
  have hpos : 0 < ((archive_and_restart m (some s)).1).archived_lists.length := by
    obtain ⟨h, -⟩ := List.getElem?_eq_some.mp h0
    simpa using h
  have hrest := restore_from_archive_zero_eq (archive_and_restart m (some s)).1
    (archiveEntryOf m (some s)) s hs h0 hpos (archiveEntryOf_some_store m s hs)
  have hitems : (archiveEntryOf m (some s)).items
      = m.shopping_list.filter (fun e => e.item.store == s) := by
    show storeSelection m (some s) = _
    exact hsel
  rw [hrest, hm2sl, hitems]
  refine ⟨?_, ?_, ?_⟩
  · rw [List.filter_append, filter_not_filter, filter_idem, List.nil_append]
  · rw [List.filter_append, filter_pos_filter, List.append_nil,
      filter_idem m.shopping_list (fun e => !(e.item.store == s))]
    exact filter_idem m.shopping_list (fun e => !(e.item.store == s))
  · exact filter_idem m.shopping_list (fun e => !(e.item.store == s))

/-- Claim C2 witness: the hypotheses of `C2_archive_restore_roundtrip` hold
for the concrete two-store cart `exampleCart2` with `s = "Costco"`, and the
roundtrip reproduces the Costco entries there. -/
theorem C2_witness :
    ("Costco" ≠ "" ∧
      exampleCart2.shopping_list.filter (fun e => e.item.store == "Costco") ≠ []) ∧
    ((restore_from_archive (archive_and_restart exampleCart2 (some "Costco")).1 0).1).shopping_list.filter
        (fun e => e.item.store == "Costco")
      = exampleCart2.shopping_list.filter (fun e => e.item.store == "Costco") :=
  ⟨⟨by decide, by decide⟩,
    (C2_archive_restore_roundtrip exampleCart2 "Costco" (by decide) (by decide)).1⟩

/-! ### Claim C3 -/

/-- Claim C3 (amended): for an in-bounds index, `restore_from_archive`
removes the live-cart entries whose store equals the archive's stored store
string and then appends copies of the archive's items; because an
"all stores" snapshot stores the literal string `'All Stores'` (which is
truthy), its restore also takes that filter branch — it removes only
entries whose store field literally equals `'All Stores'` and does NOT
clear the whole cart; the whole cart is cleared only when the archive's
`store` field is `None` or empty.  An out-of-bounds index fails and leaves
the manager unchanged, and restoration never modifies the archive ring. -/
theorem C3_restore_semantics (m : GroceryManager) (i : Int) :
    (∀ A s, 0 ≤ i → m.archived_lists[i.toNat]? = some A → A.store = some s → s ≠ "" →
      restore_from_archive m i
        = ({ m with shopping_list :=
            m.shopping_list.filter (fun e => !(e.item.store == s)) ++ A.items }, true)) ∧
    (∀ A, 0 ≤ i → m.archived_lists[i.toNat]? = some A →
      (A.store = none ∨ A.store = some "") →
      restore_from_archive m i = ({ m with shopping_list := A.items }, true)) ∧
    ((i < 0 ∨ (m.archived_lists.length : Int) ≤ i) → restore_from_archive m i = (m, false)) ∧
    ((restore_from_archive m i).1).archived_lists = m.archived_lists := by
  refine ⟨?_, ?_, ?_, restore_archived_lists m i⟩
  · intro A s h0 hA hst hs
    have hlt : i.toNat < m.archived_lists.length := (List.getElem?_eq_some.mp hA).1
    have hguard : ¬(i < 0 ∨ (m.archived_lists.length : Int) ≤ i) := by
      push_neg
      omega
    unfold restore_from_archive
    rw [if_neg hguard, hA]
    have ht : pyTruthy A.store = true := by rw [hst]; simp [pyTruthy, hs]
    simp only [ht, if_true]
    rw [hst, filterStoreNot_opt]
  · intro A h0 hA hst
    have hlt : i.toNat < m.archived_lists.length := (List.getElem?_eq_some.mp hA).1
    have hguard : ¬(i < 0 ∨ (m.archived_lists.length : Int) ≤ i) := by
      push_neg
      omega
    unfold restore_from_archive
    rw [if_neg hguard, hA]
    have ht : pyTruthy A.store = false := by
      rcases hst with h | h <;> simp [h, pyTruthy]
    simp only [ht, if_false]
    rfl
  · intro h
    unfold restore_from_archive
    rw [if_pos h]

/-- Claim C3, counterexample to the claim as stated: in `em3b` the only
archive is an `'All Stores'` snapshot (holding `co-1 × 2`) and the live
cart holds `sw-1 × 1`; the claim says restoring it clears the whole cart
and re-inserts the archive's items, but the restored cart still contains
the `sw-1` entry and is not equal to the archive's item list. -/
theorem C3_counterexample :
    em3b.archived_lists.map (fun a => a.store) = [some "All Stores"] ∧
    ((restore_from_archive em3b 0).1).shopping_list = [entrySW1, entryCO2] ∧
    ((restore_from_archive em3b 0).1).shopping_list
      ≠ (em3b.archived_lists.map (fun a => a.items)).flatten := by
  refine ⟨rfl, rfl, ?_⟩
  rw [show ((restore_from_archive em3b 0).1).shopping_list = [entrySW1, entryCO2] from rfl]
  rw [show (em3b.archived_lists.map (fun a => a.items)).flatten = [entryCO2] from rfl]
  intro h
  have hl := congrArg List.length h
  simp at hl

/-- Claim C3 witness: the in-bounds named-store part of
`C3_restore_semantics` applies to the concrete state `exampleRestoreMgr`
with its `"Costco"` archive at index 0. -/
theorem C3_witness :
    ((0 : Int) ≤ 0 ∧
      exampleRestoreMgr.archived_lists[(0 : Int).toNat]? = some exampleArchiveCO ∧
      exampleArchiveCO.store = some "Costco" ∧ "Costco" ≠ "") ∧
    restore_from_archive exampleRestoreMgr 0
      = ({ exampleRestoreMgr with shopping_list :=
          exampleRestoreMgr.shopping_list.filter (fun e => !(e.item.store == "Costco"))
            ++ exampleArchiveCO.items }, true) :=
  ⟨⟨by decide, by rfl, by rfl, by decide⟩,
    (C3_restore_semantics exampleRestoreMgr 0).1 exampleArchiveCO "Costco"
      (by decide) (by rfl) (by rfl) (by decide)⟩

/-! ### Claim C4 -/

/-- A finite sequence of `add_to_shopping_list` calls with the same item id
(the iterated operation of the claim). -/
def addMany (m : GroceryManager) (item_id : String) (qs : List Int) : GroceryManager :=
  qs.foldl (fun acc q => (add_to_shopping_list acc item_id q).1) m

theorem addMany_cons (m : GroceryManager) (item_id : String) (q : Int) (qs : List Int) :
    addMany m item_id (q :: qs) = addMany ((add_to_shopping_list m item_id q).1) item_id qs :=
  rfl

theorem addMany_loop (qs : List Int) (m : GroceryManager) (item_id : String) (it : Item)
    (l1 : List CartEntry) (e : CartEntry) (l2 : List CartEntry)
    (hf : findCatalogItem m.stores item_id = some it)
    (hsl : m.shopping_list = l1 ++ e :: l2)
    (he : e.item.id = item_id)
    (h1 : ∀ x ∈ l1, x.item.id ≠ item_id) :
    (addMany m item_id qs).shopping_list
      = l1 ++ { e with quantity := e.quantity + qs.sum } :: l2 := by
  induction qs generalizing m e with
  | nil => simp [addMany, hsl]
  | cons q rest ih =>
    rw [addMany_cons]
    have hany : m.shopping_list.any (fun x => x.item.id == item_id) = true :=
      List.any_eq_true.mpr ⟨e, by rw [hsl]; simp, by simp [he]⟩
    have hsl1 : ((add_to_shopping_list m item_id q).1).shopping_list
        = l1 ++ { e with quantity := e.quantity + q } :: l2 := by
      unfold add_to_shopping_list
      rw [hf]
      simp only [hany, if_true]
      rw [hsl]
      exact mergeQty_append l1 e l2 item_id q (fun x hx => h1 x hx) he
    have hst : ((add_to_shopping_list m item_id q).1).stores = m.stores :=
      add_to_shopping_list_stores m item_id q
    have hrec := ih ((add_to_shopping_list m item_id q).1) { e with quantity := e.quantity + q }
      (by rw [hst]; exact hf) hsl1 he
    rw [hrec]
    simp [add_assoc]

/-- Claim C4: starting from a cart with no entry for a catalog item id,
any non-empty sequence of `add_to_shopping_list` calls for that id with
positive quantities leaves exactly one cart entry for the id, whose
quantity is the sum of all requested quantities. -/
theorem C4_repeated_add (m : GroceryManager) (item_id : String) (qs : List Int) (it : Item)
    (hf : findCatalogItem m.stores item_id = some it)
    (hpos : ∀ q ∈ qs, 0 < q)
    (hnone : ∀ e ∈ m.shopping_list, e.item.id ≠ item_id)
    (hne : qs ≠ []) :
    ((addMany m item_id qs).shopping_list.countP (fun e => e.item.id == item_id) = 1) ∧
    (∀ e ∈ (addMany m item_id qs).shopping_list, e.item.id = item_id →
      e.quantity = qs.sum) := by
  obtain ⟨q0, rest, rfl⟩ := List.exists_cons_of_ne_nil hne
  have hany : m.shopping_list.any (fun x => x.item.id == item_id) = false :=
    List.any_eq_false.mpr (fun x hx => by simpa using hnone x hx)
  have hid : it.id = item_id := findCatalogItem_id _ _ _ hf
  have hsl1 : ((add_to_shopping_list m item_id q0).1).shopping_list
      = m.shopping_list ++ [{ item := it, quantity := q0 }] := by
    unfold add_to_shopping_list
    rw [hf]
    simp [hany]
  have hst : ((add_to_shopping_list m item_id q0).1).stores = m.stores :=
    add_to_shopping_list_stores m item_id q0
  rw [addMany_cons]
  have hloop := addMany_loop rest ((add_to_shopping_list m item_id q0).1) item_id it
    m.shopping_list { item := it, quantity := q0 } []
    (by rw [hst]; exact hf) (by rw [hsl1]) hid hnone
  rw [hloop]
  constructor
  · rw [List.countP_append]
    have h0 : m.shopping_list.countP (fun e => e.item.id == item_id) = 0 :=
      List.countP_eq_zero.mpr (fun x hx => by simpa using hnone x hx)
    simp [h0, hid]
  · intro e he hide
    rcases List.mem_append.mp he with h | h
    · exact absurd hide (hnone e h)
    · simp only [List.mem_cons, List.not_mem_nil, or_false] at h
      rw [h]
      simp

/-- Claim C4 witness: adding `co-1` twice (quantities 2 then 3) to the
empty cart of `exampleManager` yields one entry with quantity 5. -/
theorem C4_witness :
    (findCatalogItem exampleManager.stores "co-1" = some itemCO ∧
      (∀ q ∈ ([2, 3] : List Int), 0 < q) ∧
      (∀ e ∈ exampleManager.shopping_list, e.item.id ≠ "co-1") ∧
      ([2, 3] : List Int) ≠ []) ∧
    ((addMany exampleManager "co-1" [2, 3]).shopping_list.countP
        (fun e => e.item.id == "co-1") = 1 ∧
      ∀ e ∈ (addMany exampleManager "co-1" [2, 3]).shopping_list,
        e.item.id = "co-1" → e.quantity = ([2, 3] : List Int).sum) :=
  ⟨⟨by rfl, by decide, by decide, by decide⟩,
    C4_repeated_add exampleManager "co-1" [2, 3] itemCO (by rfl) (by decide) (by decide)
      (by decide)⟩

/-! ### Claim C5 -/

theorem archive_failure_eq (m : GroceryManager) (sn : Option String)
    (hemp : storeSelection m sn = []) :
    archive_and_restart m sn = (m, false) := by
  unfold archive_and_restart
  rw [if_pos (by simp [hemp])]

theorem archive_archived_lists (m : GroceryManager) (sn : Option String)
    (hne : storeSelection m sn ≠ []) :
    ((archive_and_restart m sn).1).archived_lists
      = if (archiveEntryOf m sn :: m.archived_lists).length > maxArchives then
          (archiveEntryOf m sn :: m.archived_lists).take maxArchives
        else archiveEntryOf m sn :: m.archived_lists := by
  unfold archive_and_restart
  rw [if_neg (by simpa [List.isEmpty_iff] using hne)]

theorem deleteFold_length_le (l : List Int) (ring : List ArchiveEntry) (cnt : Nat) :
    ((l.foldl (fun (p : List ArchiveEntry × Nat) index =>
        if 0 ≤ index ∧ index < (p.1.length : Int) then (p.1.eraseIdx index.toNat, p.2 + 1)
        else p) (ring, cnt)).1).length ≤ ring.length := by
  induction l generalizing ring cnt with
  | nil => simp
  | cons i rest ih =>
    simp only [List.foldl_cons]
    by_cases h : 0 ≤ i ∧ i < (ring.length : Int)
    · simp only [h, if_true]
      exact le_trans (ih (ring.eraseIdx i.toNat) (cnt + 1))
        ((List.eraseIdx_sublist ring i.toNat).length_le)
    · simp only [h, if_false]
      exact ih ring cnt

/-- Claim C5: the archive ring never exceeds capacity 6 under archiving,
restoring or bulk deletion; a successful `archive_and_restart` inserts the
new entry at the front (index 0), and when the ring already held exactly 6
entries it evicts exactly the oldest (last) entry, leaving the previous 5
entries in order behind the new one. -/
theorem C5_ring_capacity (m : GroceryManager) (sn : Option String)
    (h6 : m.archived_lists.length ≤ maxArchives) :
    ((archive_and_restart m sn).1).archived_lists.length ≤ maxArchives ∧
    (storeSelection m sn ≠ [] →
      ((archive_and_restart m sn).1).archived_lists.head? = some (archiveEntryOf m sn)) ∧
    (storeSelection m sn ≠ [] → m.archived_lists.length = maxArchives →
      ((archive_and_restart m sn).1).archived_lists
        = archiveEntryOf m sn :: m.archived_lists.dropLast) ∧
    (∀ i : Int, ((restore_from_archive m i).1).archived_lists = m.archived_lists) ∧
    (∀ indices : List Int,
      ((delete_multiple_archives m indices).1).archived_lists.length ≤ maxArchives) := by
  refine ⟨?_, ?_, ?_, restore_archived_lists m, ?_⟩
  · by_cases hsel : storeSelection m sn = []
    · rw [archive_failure_eq m sn hsel]
      exact h6
    · rw [archive_archived_lists m sn hsel]
      by_cases hl : (archiveEntryOf m sn :: m.archived_lists).length > maxArchives
      · simp only [hl, if_true]
        rw [List.length_take]
        exact min_le_left _ _
      · simp only [hl, if_false]
        simp only [List.length_cons, gt_iff_lt, not_lt] at hl
        exact hl
  · intro hsel
    rw [archive_archived_lists m sn hsel]
    by_cases hl : (archiveEntryOf m sn :: m.archived_lists).length > maxArchives
    · simp only [hl, if_true]
      rw [show maxArchives = 5 + 1 from rfl, List.take_succ_cons]
      rfl
    · simp only [hl, if_false]
      rfl
  · intro hsel hfull
    rw [archive_archived_lists m sn hsel]
    have hl : (archiveEntryOf m sn :: m.archived_lists).length > maxArchives := by
      simp [List.length_cons, hfull]
    simp only [hl, if_true]
    rw [show maxArchives = 5 + 1 from rfl, List.take_succ_cons]
    congr 1
    rw [List.dropLast_eq_take, hfull]
    rfl
  · intro indices
    unfold delete_multiple_archives
    by_cases hemp : indices.isEmpty
    · simp only [hemp, if_true]
      exact h6
    · simp only [hemp, Bool.false_eq_true, if_false]
      split_ifs with hc
    
      · exact le_trans (deleteFold_length_le (sortDesc indices) m.archived_lists 0) h6
      · exact h6

def exampleFullRing : List ArchiveEntry :=
  List.replicate 6 { store := some "Costco", items := [entryCO2], item_count := 1, total_cost := 0 }

def exampleFullMgr : GroceryManager :=
  { exampleManager with shopping_list := [entrySW1], archived_lists := exampleFullRing }

/-- Claim C5 witness: archiving `"Safeway"` when the ring already holds 6
entries puts the new snapshot at the front and keeps only the first 5 old
entries. -/
theorem C5_witness :
    (exampleFullMgr.archived_lists.length ≤ maxArchives ∧
      storeSelection exampleFullMgr (some "Safeway") ≠ [] ∧
      exampleFullMgr.archived_lists.length = maxArchives) ∧
    ((archive_and_restart exampleFullMgr (some "Safeway")).1).archived_lists
      = archiveEntryOf exampleFullMgr (some "Safeway") :: exampleFullMgr.archived_lists.dropLast :=
  ⟨⟨by decide, by decide, by decide⟩,
    (C5_ring_capacity exampleFullMgr (some "Safeway") (by decide)).2.2.1 (by decide) (by decide)⟩

/-! ### Claim C6 -/

theorem findSetQty_cons (x : CartEntry) (l : List CartEntry) (tid : String) (q : Int) :
    findSetQty (x :: l) tid q
      = if x.item.id == tid then some ({ x with quantity := q } :: l, x.item.name, x.quantity)
        else (findSetQty l tid q).map (fun r => (x :: r.1, r.2)) := rfl

theorem findSetQty_none (l : List CartEntry) (tid : String) (q : Int)
    (h : ∀ e ∈ l, e.item.id ≠ tid) : findSetQty l tid q = none := by
  induction l with
  | nil => rfl
  | cons e rest ih =>
    have he : ¬(e.item.id == tid) = true := by simpa using h e (by simp)
    rw [findSetQty_cons, if_neg he, ih (fun x hx => h x (by simp [hx]))]
    rfl

theorem findSetQty_split (l1 : List CartEntry) (e : CartEntry) (l2 : List CartEntry)
    (tid : String) (q : Int)
    (h1 : ∀ x ∈ l1, x.item.id ≠ tid) (he : e.item.id = tid) :
    findSetQty (l1 ++ e :: l2) tid q
      = some (l1 ++ { e with quantity := q } :: l2, e.item.name, e.quantity) := by
  induction l1 with
  | nil =>
    rw [List.nil_append, findSetQty_cons, if_pos (by simp [he])]
    rfl
  | cons x rest ih =>
    have hx : ¬(x.item.id == tid) = true := by simpa using h1 x (by simp)
    rw [List.cons_append, findSetQty_cons, if_neg hx, ih (fun y hy => h1 y (by simp [hy]))]
    rfl

/-- Claim C6: with a well-formed id (trimmed, non-empty) and a cart with
unique ids, `update_item_quantity` fails (non-fatally, via its returned
result) when the new quantity is below 1 or when no cart entry has the id,
leaving the manager unchanged; otherwise it overwrites exactly that entry's
quantity and leaves every other entry unchanged. -/
theorem C6_update_quantity (m : GroceryManager) (item_id : String) (q : Int)
    (hid : pyStrip item_id = item_id) (hne : item_id ≠ "")
    (hnd : cartIdsNodup m.shopping_list) :
    (q < 1 → update_item_quantity m item_id q = (m, .qtyTooSmall)) ∧
    (1 ≤ q → (∀ e ∈ m.shopping_list, e.item.id ≠ item_id) →
      update_item_quantity m item_id q = (m, .notFound item_id)) ∧
    (1 ≤ q → ∀ e ∈ m.shopping_list, e.item.id = item_id →
      ∃ l1 l2, m.shopping_list = l1 ++ e :: l2 ∧ (∀ x ∈ l1, x.item.id ≠ item_id) ∧
        update_item_quantity m item_id q
          = ({ m with shopping_list := l1 ++ { e with quantity := q } :: l2 },
              .updated e.item.name e.quantity q)) := by
  have hguard : ¬(item_id = "" ∨ pyStrip item_id = "") := by
    rw [hid]
    simp [hne]
  refine ⟨?_, ?_, ?_⟩
  · intro hq
    unfold update_item_quantity
    rw [if_neg hguard, if_pos hq]
  · intro hq hnone
    unfold update_item_quantity
    rw [if_neg hguard, if_neg (not_lt.mpr hq), hid,
      findSetQty_none m.shopping_list item_id q hnone]
  · intro hq e he heid
    obtain ⟨l1, l2, hsplit, hfree⟩ := exists_split_of_mem_nodup m.shopping_list e he hnd
    refine ⟨l1, l2, hsplit, fun x hx => by rw [← heid]; exact hfree x hx, ?_⟩
    unfold update_item_quantity
    rw [if_neg hguard, if_neg (not_lt.mpr hq), hid, hsplit,
      findSetQty_split l1 e l2 item_id q (fun x hx => by rw [← heid]; exact hfree x hx) heid]

/-- Claim C6 witness: updating `sw-1` to quantity 5 in the two-entry cart
`exampleCart2` overwrites exactly that entry. -/
theorem C6_witness :
    (pyStrip "sw-1" = "sw-1" ∧ "sw-1" ≠ "" ∧ cartIdsNodup exampleCart2.shopping_list ∧
      (1 : Int) ≤ 5 ∧ entrySW1 ∈ exampleCart2.shopping_list ∧ entrySW1.item.id = "sw-1") ∧
    (∃ l1 l2, exampleCart2.shopping_list = l1 ++ entrySW1 :: l2 ∧
      (∀ x ∈ l1, x.item.id ≠ "sw-1") ∧
      update_item_quantity exampleCart2 "sw-1" 5
        = ({ exampleCart2 with shopping_list := l1 ++ { entrySW1 with quantity := 5 } :: l2 },
            .updated entrySW1.item.name entrySW1.quantity 5)) :=
  ⟨⟨by decide, by decide, by decide, by decide, by simp [exampleCart2], rfl⟩,
    (C6_update_quantity exampleCart2 "sw-1" 5 (by decide) (by decide) (by decide)).2.2
      (by decide) entrySW1 (by simp [exampleCart2]) rfl⟩

/-! ### Claim C7 -/

theorem patchItems_cons (it : Item) (rest : List Item) (item_id : String)
    (n c : Option String) (p : Option ℚ) (u : Option String) :
    patchItems (it :: rest) item_id n c p u
      = if it.id == item_id then some (applyFields it n c p u :: rest)
        else (patchItems rest item_id n c p u).map (fun l => it :: l) := rfl

theorem patchStores_cons (sn : String) (items : List Item) (rest : List (String × List Item))
    (item_id : String) (n c : Option String) (p : Option ℚ) (u : Option String) :
    patchStores ((sn, items) :: rest) item_id n c p u
      = match patchItems items item_id n c p u with
        | some items2 => some ((sn, items2) :: rest)
        | none => (patchStores rest item_id n c p u).map (fun l => (sn, items) :: l) := rfl

theorem findCatalogItem_cons (sn : String) (items : List Item)
    (rest : List (String × List Item)) (item_id : String) :
    findCatalogItem ((sn, items) :: rest) item_id
      = match items.find? (fun it => it.id == item_id) with
        | some it => some it
        | none => findCatalogItem rest item_id := rfl

theorem applyFields_id (it : Item) (n c : Option String) (p : Option ℚ) (u : Option String) :
    (applyFields it n c p u).id = it.id := rfl

theorem find?_id_cons (it : Item) (rest : List Item) (item_id : String) :
    (it :: rest).find? (fun x => x.id == item_id)
      = if it.id == item_id then some it else rest.find? (fun x => x.id == item_id) := by
  cases hb : (it.id == item_id) <;> simp [List.find?_cons, hb]

theorem patchItems_none_iff (items : List Item) (item_id : String) (n c : Option String)
    (p : Option ℚ) (u : Option String) :
    patchItems items item_id n c p u = none
      ↔ items.find? (fun it => it.id == item_id) = none := by
  induction items with
  | nil => simp [patchItems]
  | cons it rest ih =>
    by_cases hb : (it.id == item_id) = true
    · rw [patchItems_cons, if_pos hb, find?_id_cons, if_pos hb]
      simp
    · rw [patchItems_cons, if_neg hb, find?_id_cons, if_neg hb]
      simp [ih]

theorem patchItems_some_spec (items : List Item) (items2 : List Item) (item_id : String)
    (n c : Option String) (p : Option ℚ) (u : Option String)
    (h : patchItems items item_id n c p u = some items2) :
    ∃ it, items.find? (fun x => x.id == item_id) = some it ∧
      items2.find? (fun x => x.id == item_id) = some (applyFields it n c p u) := by
  induction items generalizing items2 with
  | nil => simp [patchItems] at h
  | cons it rest ih =>
    by_cases hb : (it.id == item_id) = true
    · rw [patchItems_cons, if_pos hb] at h
      injection h with h
      subst h
      refine ⟨it, by rw [find?_id_cons, if_pos hb], ?_⟩
      rw [find?_id_cons]
      rw [if_pos (by simpa [applyFields_id] using hb)]
    · rw [patchItems_cons, if_neg hb] at h
      obtain ⟨l2, hl2, rfl⟩ := Option.map_eq_some'.mp h
      obtain ⟨it0, h1, h2⟩ := ih l2 hl2
      exact ⟨it0, by rw [find?_id_cons, if_neg hb]; exact h1,
        by rw [find?_id_cons, if_neg hb]; exact h2⟩

theorem patchStores_none_iff (stores : List (String × List Item)) (item_id : String)
    (n c : Option String) (p : Option ℚ) (u : Option String) :
    patchStores stores item_id n c p u = none ↔ findCatalogItem stores item_id = none := by
  induction stores with
  | nil => simp [patchStores, findCatalogItem]
  | cons sp rest ih =>
    obtain ⟨sn, items⟩ := sp
    rw [patchStores_cons, findCatalogItem_cons]
    cases hpi : patchItems items item_id n c p u with
    | some items2 =>
      have hf : ¬(items.find? (fun it => it.id == item_id) = none) := by
        intro hc
        rw [(patchItems_none_iff items item_id n c p u).mpr hc] at hpi
        cases hpi
      cases hfind : items.find? (fun it => it.id == item_id) with
      | none => exact absurd hfind hf
      | some it => simp
    | none =>
      rw [(patchItems_none_iff items item_id n c p u).mp hpi]
      simp [ih]

theorem patchStores_some_spec (stores stores2 : List (String × List Item)) (item_id : String)
    (n c : Option String) (p : Option ℚ) (u : Option String)
    (h : patchStores stores item_id n c p u = some stores2) :
    ∃ it, findCatalogItem stores item_id = some it ∧
      findCatalogItem stores2 item_id = some (applyFields it n c p u) := by
  induction stores generalizing stores2 with
  | nil => simp [patchStores] at h
  | cons sp rest ih =>
    obtain ⟨sn, items⟩ := sp
    rw [patchStores_cons] at h
    cases hpi : patchItems items item_id n c p u with
    | some items2 =>
      rw [hpi] at h
      injection h with h
      subst h
      obtain ⟨it0, h1, h2⟩ := patchItems_some_spec items items2 item_id n c p u hpi
      refine ⟨it0, ?_, ?_⟩
      · rw [findCatalogItem_cons, h1]
      · rw [findCatalogItem_cons, h2]
    | none =>
      rw [hpi] at h
      obtain ⟨l2, hl2, rfl⟩ := Option.map_eq_some'.mp h
      obtain ⟨it0, h1, h2⟩ := ih l2 hl2
      have hfn : items.find? (fun it => it.id == item_id) = none :=
        (patchItems_none_iff items item_id n c p u).mp hpi
      refine ⟨it0, ?_, ?_⟩
      · rw [findCatalogItem_cons, hfn]
        exact h1
      · rw [findCatalogItem_cons, hfn]
        exact h2

theorem map_patch_no_match (l : List CartEntry) (item_id : String) (n c : Option String)
    (p : Option ℚ) (u : Option String)
    (h : ∀ e ∈ l, e.item.id ≠ item_id) :
    l.map (fun e =>
      if e.item.id == item_id then { e with item := applyFields e.item n c p u } else e) = l := by
  induction l with
  | nil => rfl
  | cons e rest ih =>
    have he : ¬(e.item.id == item_id) = true := by simpa using h e (by simp)
    simp only [List.map_cons, if_neg he]
    rw [ih (fun x hx => h x (by simp [hx]))]

/-- Claim C7: `update_catalog_item` succeeds exactly when the id is present
in some store; on success the (first) matching catalog item afterwards
carries exactly the provided fields (`applyFields`), the cart is rewritten
by patching precisely the entries sharing the id (with the same values,
quantities untouched), and a cart with no matching entry is left entirely
unchanged; when the id is absent from every store the call reports failure
and changes nothing. -/
theorem C7_update_catalog (m : GroceryManager) (item_id : String) (n c : Option String)
    (p : Option ℚ) (u : Option String) :
    ((update_catalog_item m item_id n c p u).2 = true ↔
      (findCatalogItem m.stores item_id).isSome) ∧
    (∀ it, findCatalogItem m.stores item_id = some it →
      findCatalogItem ((update_catalog_item m item_id n c p u).1).stores item_id
        = some (applyFields it n c p u)) ∧
    ((update_catalog_item m item_id n c p u).2 = true →
      ((update_catalog_item m item_id n c p u).1).shopping_list
        = m.shopping_list.map (fun e =>
            if e.item.id == item_id then { e with item := applyFields e.item n c p u }
            else e)) ∧
    ((∀ e ∈ m.shopping_list, e.item.id ≠ item_id) →
      ((update_catalog_item m item_id n c p u).1).shopping_list = m.shopping_list) ∧
    (findCatalogItem m.stores item_id = none →
      update_catalog_item m item_id n c p u = (m, false)) := by
  cases hps : patchStores m.stores item_id n c p u with
  | none =>
    have hfc : findCatalogItem m.stores item_id = none :=
      (patchStores_none_iff m.stores item_id n c p u).mp hps
    have hupd : update_catalog_item m item_id n c p u = (m, false) := by
      unfold update_catalog_item
      rw [hps]
    refine ⟨?_, ?_, ?_, ?_, fun _ => hupd⟩
    · rw [hupd]
      simp [hfc]
    · intro it hit
      rw [hfc] at hit
      cases hit
    · intro h2
      rw [hupd] at h2
      simp at h2
    · intro _
      rw [hupd]
  | some stores2 =>
    obtain ⟨it0, hfind, hfind2⟩ :=
      patchStores_some_spec m.stores stores2 item_id n c p u hps
    have hupd : update_catalog_item m item_id n c p u
        = ({ m with
              stores := stores2
              shopping_list := m.shopping_list.map (fun e =>
                if e.item.id == item_id then { e with item := applyFields e.item n c p u }
                else e) }, true) := by
      unfold update_catalog_item
      rw [hps]
    refine ⟨?_, ?_, ?_, ?_, ?_⟩
    · rw [hupd]
      simp [hfind]
    · intro it hit
      rw [hfind] at hit
      injection hit with hit
      subst hit
      rw [hupd]
      exact hfind2
    · intro _
      rw [hupd]
    · intro hnone
      rw [hupd]
      exact map_patch_no_match m.shopping_list item_id n c p u hnone
    · intro hfc
      rw [hfc] at hfind
      cases hfind

/-- Claim C7 witness: updating the price of `sw-1` in `exampleManager`
(whose cart is empty) patches the catalog item and leaves the cart
unchanged. -/
theorem C7_witness :
    (findCatalogItem exampleManager.stores "sw-1" = some itemSW ∧
      (∀ e ∈ exampleManager.shopping_list, e.item.id ≠ "sw-1")) ∧
    (findCatalogItem ((update_catalog_item exampleManager "sw-1" none none (some 3) none).1).stores
        "sw-1" = some (applyFields itemSW none none (some 3) none) ∧
      ((update_catalog_item exampleManager "sw-1" none none (some 3) none).1).shopping_list
        = exampleManager.shopping_list) :=
  ⟨⟨by rfl, by decide⟩,
    (C7_update_catalog exampleManager "sw-1" none none (some 3) none).2.1 itemSW (by rfl),
    (C7_update_catalog exampleManager "sw-1" none none (some 3) none).2.2.2.1 (by decide)⟩

/-! ### Claim C8 -/

def exampleCafeItem : Item :=
  { id := "sa-1", name := "Cafe", category := "Beverages", store := "Safeway",
    price := 2, unit := "cup" }

def exampleCafe : GroceryManager :=
  { stores := [("Safeway", [exampleCafeItem])], shopping_list := [], budget := 100,
    archived_lists := [] }

/-- Claim C8: past the field validation, `add_catalog_item` rejects the new
item as a duplicate exactly when its NFKD-normalized, combining-mark-free,
stripped, lowercased name equals the lowercased name of an item already in
that store's catalog; in particular, adding an item named `"Café"` (with
the precomposed accented character) to a store already holding a
plain-ASCII `"Cafe"` is rejected as a duplicate. -/
theorem C8_duplicate_name (m : GroceryManager) (store_name name category : String)
    (price : ℚ) (u : String) (hn : name ≠ "") (hc : category ≠ "") (hp : 0 < price) :
    ((add_catalog_item m store_name name category price u).2
        = .duplicate (normalize_text (pyStrip name)) ↔
      ∃ it ∈ (m.stores.lookup store_name).getD [],
        pyLower it.name = pyLower (normalize_text (pyStrip name))) ∧
    (add_catalog_item exampleCafe "Safeway" "Café" "Beverages" 3 "cup").2
      = .duplicate "Cafe" := by
  constructor
  · unfold add_catalog_item
    rw [if_neg (by push_neg; exact ⟨hn, hc, hp⟩)]
    by_cases ha : ((m.stores.lookup store_name).getD []).any
        (fun it => pyLower it.name == pyLower (normalize_text (pyStrip name)))
    · simp only [ha, if_true]
      constructor
      · intro _
        obtain ⟨it, hmem, hbeq⟩ := List.any_eq_true.mp ha
        exact ⟨it, hmem, by simpa using hbeq⟩
      · intro _
        trivial
    · simp only [ha, Bool.false_eq_true, if_false]
      constructor
      · intro h
        simp at h
      · rintro ⟨it, hmem, heq⟩
        exact absurd (List.any_eq_true.mpr ⟨it, hmem, by simp [heq]⟩) ha
  · decide

/-- Claim C8 witness: the duplicate-detection equivalence instantiated at
the `"Café"` / `"Cafe"` store. -/
theorem C8_witness :
    ("Café" ≠ "" ∧ "Beverages" ≠ "" ∧ (0 : ℚ) < 3) ∧
    ((add_catalog_item exampleCafe "Safeway" "Café" "Beverages" 3 "cup").2
        = .duplicate (normalize_text (pyStrip "Café")) ↔
      ∃ it ∈ (exampleCafe.stores.lookup "Safeway").getD [],
        pyLower it.name = pyLower (normalize_text (pyStrip "Café"))) :=
  ⟨⟨by decide, by decide, by decide⟩,
    (C8_duplicate_name exampleCafe "Safeway" "Café" "Beverages" 3 "cup"
      (by decide) (by decide) (by decide)).1⟩

/-! ### Claim C9 -/

theorem sortDesc_cons (a : Int) (as : List Int) :
    sortDesc (a :: as) = insertDesc a (sortDesc as) := rfl

theorem mem_insertDesc (x a : Int) (l : List Int) :
    x ∈ insertDesc a l ↔ x = a ∨ x ∈ l := by
  induction l with
  | nil => simp [insertDesc]
  | cons y ys ih =>
    by_cases h : y ≤ a
    · simp [insertDesc, h]
    · simp only [insertDesc, h, if_false, List.mem_cons, ih]
      tauto

theorem mem_sortDesc (x : Int) (l : List Int) : x ∈ sortDesc l ↔ x ∈ l := by
  induction l with
  | nil => simp [sortDesc]
  | cons a as ih =>
    rw [sortDesc_cons, mem_insertDesc, ih]
    simp

theorem deleteFold_invalid (l : List Int) (ring : List ArchiveEntry) (cnt : Nat)
    (h : ∀ i ∈ l, i < 0 ∨ (ring.length : Int) ≤ i) :
    l.foldl (fun (p : List ArchiveEntry × Nat) index =>
        if 0 ≤ index ∧ index < (p.1.length : Int) then (p.1.eraseIdx index.toNat, p.2 + 1)
        else p) (ring, cnt) = (ring, cnt) := by
  induction l with
  | nil => rfl
  | cons i rest ih =>
    simp only [List.foldl_cons]
    have hcond : ¬(0 ≤ i ∧ i < (ring.length : Int)) := by
      rcases h i (by simp) with h1 | h1 <;> omega
    rw [if_neg hcond]
    exact ih (fun j hj => h j (by simp [hj]))

/-- Claim C9: `delete_multiple_archives` processes indices in descending
order, so deleting `[0, 2]` from any 3-entry ring removes exactly the
entries originally at indices 0 and 2, leaving the original index-1 entry
as the sole entry and reporting 2 deletions; when every given index is out
of bounds it reports failure with zero deletions and leaves the manager
unchanged. -/
theorem C9_delete_multiple :
    (∀ (m : GroceryManager) (a b c : ArchiveEntry), m.archived_lists = [a, b, c] →
      delete_multiple_archives m [0, 2] = ({ m with archived_lists := [b] }, true, 2)) ∧
    (∀ (m : GroceryManager) (indices : List Int),
      (∀ i ∈ indices, i < 0 ∨ (m.archived_lists.length : Int) ≤ i) →
      delete_multiple_archives m indices = (m, false, 0)) := by
  constructor
  · intro m a b c hring
    unfold delete_multiple_archives
    rw [if_neg (by simp)]
    rw [hring]
    norm_num [sortDesc, insertDesc, List.foldl_cons, List.foldl_nil, List.eraseIdx]
  · intro m indices h
    unfold delete_multiple_archives
    by_cases hemp : indices.isEmpty = true
    · rw [if_pos hemp]
    · rw [if_neg hemp]
      rw [deleteFold_invalid (sortDesc indices) m.archived_lists 0
        (fun i hi => h i ((mem_sortDesc i indices).mp hi))]
      rw [if_neg (by simp)]

def archB : ArchiveEntry :=
  { store := some "Safeway", items := [], item_count := 0, total_cost := 0 }

def archC : ArchiveEntry :=
  { store := some "Costco", items := [], item_count := 0, total_cost := 0 }

def exampleRing3Mgr : GroceryManager :=
  { exampleManager with archived_lists := [exampleArchiveCO, archB, archC] }

/-- Claim C9 witness: deleting indices `[0, 2]` from the concrete 3-entry
ring leaves exactly the original middle entry. -/
theorem C9_witness :
    exampleRing3Mgr.archived_lists = [exampleArchiveCO, archB, archC] ∧
    delete_multiple_archives exampleRing3Mgr [0, 2]
      = ({ exampleRing3Mgr with archived_lists := [archB] }, true, 2) :=
  ⟨rfl, C9_delete_multiple.1 exampleRing3Mgr exampleArchiveCO archB archC rfl⟩

/-! ### Claim C10 -/

/-- Claim C10: both budget-status computations are total in the budget
value: when the budget is zero or negative the guarded branch reports 0
without forming the quotient, and when the budget is positive the computed
percentage (ratio in `app.py`) is exactly `total / budget × 100`
(`total / budget`); the reported `percentage` field is that value rounded
to one decimal. -/
theorem C10_budget_totality (m : GroceryManager) :
    (m.budget ≤ 0 →
      budgetPercentage m = 0 ∧ (get_budget_status m).percentage = 0 ∧
      app_get_budget_status_ratio m = 0) ∧
    (0 < m.budget →
      budgetPercentage m = get_total_cost m / m.budget * 100 ∧
      (get_budget_status m).percentage = roundTo 1 (get_total_cost m / m.budget * 100) ∧
      app_get_budget_status_ratio m = app_budget_total m / m.budget) := by
  constructor
  · intro h
    have hb : ¬(m.budget > 0) := not_lt.mpr h
    refine ⟨by simp [budgetPercentage, hb], ?_, by simp [app_get_budget_status_ratio, hb]⟩
    show roundTo 1 (budgetPercentage m) = 0
    rw [show budgetPercentage m = 0 from by simp [budgetPercentage, hb]]
    norm_num [roundTo]
  · intro h
    exact ⟨by simp [budgetPercentage, h], by simp [get_budget_status, budgetPercentage, h],
      by simp [app_get_budget_status_ratio, h]⟩

def exampleZeroBudget : GroceryManager := { exampleManager with budget := 0 }

/-- Claim C10 witness: the zero-budget branch at budget `0` and the
positive branch at budget `750`. -/
theorem C10_witness :
    (exampleZeroBudget.budget ≤ 0 ∧ (0 : ℚ) < exampleManager.budget) ∧
    (budgetPercentage exampleZeroBudget = 0 ∧
      app_get_budget_status_ratio exampleZeroBudget = 0) ∧
    (budgetPercentage exampleManager
        = get_total_cost exampleManager / exampleManager.budget * 100 ∧
      app_get_budget_status_ratio exampleManager
        = app_budget_total exampleManager / exampleManager.budget) :=
  ⟨⟨by decide, by decide⟩,
    ⟨((C10_budget_totality exampleZeroBudget).1 (by decide)).1,
      ((C10_budget_totality exampleZeroBudget).1 (by decide)).2.2⟩,
    ⟨((C10_budget_totality exampleManager).2 (by decide)).1,
      ((C10_budget_totality exampleManager).2 (by decide)).2.2⟩⟩
